import Mathlib

/-!
Shallow embedding of the usage-telemetry subsystem of CLIProxyAPI
(internal/usage/database_plugin.go and internal/usage/otlp_plugin.go),
together with theorems settling the specification claims about it.

Machine integers are modelled as `Nat`/`Int` with explicit reduction
modulo 2^32 where the Go code relies on 32-bit wraparound (inside SHA-256).
Time values (`time.Time`) are modelled as seconds since the Unix epoch
(`Nat`); the Go formatting `Format("2006-01-02")` buckets a UTC instant by
calendar day, which for epoch-based seconds is division by 86400.
-/

namespace CLIProxy

/-! ## SHA-256 (crypto/sha256), used by `fingerprint` -/

/-- Reduce to 32 bits, mirroring Go `uint32` arithmetic. -/
def w32 (x : Nat) : Nat := x % 4294967296

/-- 32-bit rotate right. -/
def rotr32 (n x : Nat) : Nat := w32 ((x >>> n) ||| (x <<< (32 - n)))

def shaCh (x y z : Nat) : Nat := (x &&& y) ^^^ ((x ^^^ 0xffffffff) &&& z)

def shaMaj (x y z : Nat) : Nat := (x &&& y) ^^^ (x &&& z) ^^^ (y &&& z)

def bigSigma0 (x : Nat) : Nat := rotr32 2 x ^^^ rotr32 13 x ^^^ rotr32 22 x

def bigSigma1 (x : Nat) : Nat := rotr32 6 x ^^^ rotr32 11 x ^^^ rotr32 25 x

def smallSigma0 (x : Nat) : Nat := rotr32 7 x ^^^ rotr32 18 x ^^^ (x >>> 3)

def smallSigma1 (x : Nat) : Nat := rotr32 17 x ^^^ rotr32 19 x ^^^ (x >>> 10)

/-- The 64 SHA-256 round constants (FIPS 180-4, written in decimal). -/
def shaK : List Nat :=
  [1116352408, 1899447441, 3049323471, 3921009573, 961987163, 1508970993,
   2453635748, 2870763221, 3624381080, 310598401, 607225278, 1426881987,
   1925078388, 2162078206, 2614888103, 3248222580, 3835390401, 4022224774,
   264347078, 604807628, 770255983, 1249150122, 1555081692, 1996064986,
   2554220882, 2821834349, 2952996808, 3210313671, 3336571891, 3584528711,
   113926993, 338241895, 666307205, 773529912, 1294757372, 1396182291,
   1695183700, 1986661051, 2177026350, 2456956037, 2730485921, 2820302411,
   3259730800, 3345764771, 3516065817, 3600352804, 4094571909, 275423344,
   430227734, 506948616, 659060556, 883997877, 958139571, 1322822218,
   1537002063, 1747873779, 1955562222, 2024104815, 2227730452, 2361852424,
   2428436474, 2756734187, 3204031479, 3329325298]

/-- Running hash state: Go's `digest.h [8]uint32`. -/
structure Hash8 where
  a : Nat
  b : Nat
  c : Nat
  d : Nat
  e : Nat
  f : Nat
  g : Nat
  h : Nat
  deriving DecidableEq

/-- SHA-256 initial hash value (FIPS 180-4, written in decimal). -/
def shaH0 : Hash8 :=
  ⟨1779033703, 3144134277, 1013904242, 2773480762,
   1359893119, 2600822924, 528734635, 1541459225⟩

/-- One compression round on state `st` with round constant/word pair `kw`. -/
def shaRound (st : Hash8) (kw : Nat × Nat) : Hash8 :=
  let t1 := w32 (st.h + bigSigma1 st.e + shaCh st.e st.f st.g + kw.1 + kw.2)
  let t2 := w32 (bigSigma0 st.a + shaMaj st.a st.b st.c)
  ⟨w32 (t1 + t2), st.a, st.b, st.c, w32 (st.d + t1), st.e, st.f, st.g⟩

/-- Big-endian 32-bit words from a byte list (4 bytes per word). -/
def be32Words : List Nat → List Nat
  | b0 :: b1 :: b2 :: b3 :: rest =>
      ((((b0 <<< 8) ||| b1) <<< 8 ||| b2) <<< 8 ||| b3) :: be32Words rest
  | _ => []

/-- Extend the 16 block words to the 64-entry message schedule. -/
def shaSchedule (w : Array Nat) : Array Nat :=
  (List.range 48).foldl
    (fun w i =>
      w.push (w32 (smallSigma1 (w.getD (i + 14) 0) + w.getD (i + 9) 0 +
        smallSigma0 (w.getD (i + 1) 0) + w.getD i 0)))
    w

/-- Compress one 64-byte block into the running state. -/
def shaBlock (st : Hash8) (block : List Nat) : Hash8 :=
  let ws := (shaSchedule (be32Words block).toArray).toList
  let r := (shaK.zip ws).foldl shaRound st
  ⟨w32 (st.a + r.a), w32 (st.b + r.b), w32 (st.c + r.c), w32 (st.d + r.d),
   w32 (st.e + r.e), w32 (st.f + r.f), w32 (st.g + r.g), w32 (st.h + r.h)⟩

/-- Fold the compression function over all 64-byte blocks.  The fuel
argument (instantiated with the message length, an upper bound on the
number of blocks) only makes the recursion structural; it never runs out
on a padded message. -/
def shaBlocksFuel : Nat → Hash8 → List Nat → Hash8
  | 0, st, _ => st
  | _ + 1, st, [] => st
  | fuel + 1, st, bytes => shaBlocksFuel fuel (shaBlock st (bytes.take 64)) (bytes.drop 64)

def shaBlocks (st : Hash8) (bytes : List Nat) : Hash8 :=
  shaBlocksFuel bytes.length st bytes

/-- Big-endian 8-byte encoding of the bit length. -/
def lenBytes64 (n : Nat) : List Nat :=
  [(n >>> 56) &&& 255, (n >>> 48) &&& 255, (n >>> 40) &&& 255, (n >>> 32) &&& 255,
   (n >>> 24) &&& 255, (n >>> 16) &&& 255, (n >>> 8) &&& 255, n &&& 255]

/-- SHA-256 padding: append 0x80, zeros to 56 mod 64, then the 64-bit bit length. -/
def shaPad (msg : List Nat) : List Nat :=
  let l := msg.length
  let padLen := (119 - l % 64) % 64
  msg ++ 0x80 :: (List.replicate padLen 0 ++ lenBytes64 (8 * l))

/-- Big-endian bytes of one 32-bit word. -/
def word32Bytes (x : Nat) : List Nat :=
  [(x >>> 24) &&& 255, (x >>> 16) &&& 255, (x >>> 8) &&& 255, x &&& 255]

/-- `sha256.Sum256`: the 32-byte digest of a byte message. -/
def sha256Bytes (msg : List Nat) : List Nat :=
  let st := shaBlocks shaH0 (shaPad msg)
  word32Bytes st.a ++ word32Bytes st.b ++ word32Bytes st.c ++ word32Bytes st.d ++
  word32Bytes st.e ++ word32Bytes st.f ++ word32Bytes st.g ++ word32Bytes st.h

/-- UTF-8 encoding of one code point (Go `[]byte(string)` view of a rune). -/
def utf8Bytes (c : Nat) : List Nat :=
  if c < 0x80 then [c]
  else if c < 0x800 then [0xc0 ||| (c >>> 6), 0x80 ||| (c &&& 0x3f)]
  else if c < 0x10000 then
    [0xe0 ||| (c >>> 12), 0x80 ||| ((c >>> 6) &&& 0x3f), 0x80 ||| (c &&& 0x3f)]
  else
    [0xf0 ||| (c >>> 18), 0x80 ||| ((c >>> 12) &&& 0x3f),
     0x80 ||| ((c >>> 6) &&& 0x3f), 0x80 ||| (c &&& 0x3f)]

/-- The bytes of a string, as Go's `[]byte(value)` (UTF-8). -/
def strBytes (s : String) : List Nat := s.data.flatMap (fun c => utf8Bytes c.toNat)

/-- Lower-case hex digit of a nibble, as indexing Go's "0123456789abcdef"
table: digits 0-9 map from code point 48, letters a-f from code point 97. -/
def hexDigit (n : Nat) : Char :=
  if n < 10 then Char.ofNat (48 + n) else Char.ofNat (87 + n)

/-- `hex.EncodeToString` over a byte list. -/
def hexEncode (bytes : List Nat) : String :=
  String.mk (bytes.flatMap (fun b => [hexDigit (b / 16), hexDigit (b % 16)]))

/-! ## fingerprint / credentialFingerprint / credentialLabel
(internal/usage/database_plugin.go) -/

/-- `fingerprint`: empty input yields the empty string, otherwise the
lower-case hex SHA-256 of the input. -/
def fingerprint (value : String) : String :=
  if value = "" then ("")
  else hexEncode (sha256Bytes (strBytes value))

/-- Token counts of a usage record.
Modelled from the spec: the `TokenStats` type is declared outside the given
sources; the spec's Detail sub-record carries exactly the five token counts
{input, output, reasoning, cached, total}, which is also how
`usageStore.insert` consumes it. -/
structure TokenStats where
  InputTokens : Int
  OutputTokens : Int
  ReasoningTokens : Int
  CachedTokens : Int
  TotalTokens : Int
  deriving DecidableEq

/-- A usage record produced by the serving path.
Modelled from the spec: `coreusage.Record` is declared outside the given
sources; the spec lists its fields as provider, model, auth identifier,
auth index, source tag, requested-at timestamp, failed flag, raw API key
material, and the Detail token counts, matching every field the given
sources read. `RequestedAt = 0` models the zero `time.Time`. -/
structure UsageRecord where
  Provider : String
  Model : String
  AuthID : String
  AuthIndex : Nat
  Source : String
  RequestedAt : Nat
  Failed : Bool
  APIKey : String
  Detail : TokenStats
  deriving DecidableEq

/-- `normaliseDetail`.
Modelled from the spec: this helper is declared outside the given sources;
the spec describes the Detail sub-record as carrying the five token counts
through to persistence unchanged, so it is modelled as the identity copy of
those counts. -/
def normaliseDetail (d : TokenStats) : TokenStats := d

/-- `credentialLabel`: first non-empty of auth id, source, provider, then
the literals "api-key" (raw key present) and "unknown". -/
def credentialLabel (record : UsageRecord) : String :=
  if record.AuthID ≠ "" then record.AuthID
  else if record.Source ≠ "" then record.Source
  else if record.Provider ≠ "" then record.Provider
  else if record.APIKey ≠ "" then ("api-key")
  else ("unknown")

/-- `credentialFingerprint`: hash of the first non-empty of auth id, source,
raw key, provider; hash of the literal "unknown" when all are empty. -/
def credentialFingerprint (record : UsageRecord) : String :=
  if record.AuthID ≠ "" then fingerprint record.AuthID
  else if record.Source ≠ "" then fingerprint record.Source
  else if record.APIKey ≠ "" then fingerprint record.APIKey
  else if record.Provider ≠ "" then fingerprint record.Provider
  else fingerprint ("unknown")

/-! ## HandleUsage and the database record (internal/usage/database_plugin.go) -/

/-- The request context as `resolveStatusCode` reads it: absent, present
without a gin context, or carrying a gin writer status. -/
inductive GoContext where
  | none
  | noGin
  | gin (status : Int)
  deriving DecidableEq

/-- `resolveStatusCode`: 0 unless a gin context supplies a writer status. -/
def resolveStatusCode : GoContext → Int
  | .none => 0
  | .noGin => 0
  | .gin status => status

/-- `dbRecord`: the row payload handed to the store. -/
structure DbRecord where
  Timestamp : Nat
  Provider : String
  Model : String
  CredentialLabel : String
  CredentialFingerprint : String
  APIKeyHash : String
  AuthID : String
  AuthIndex : Nat
  Source : String
  StatusCode : Int
  Failed : Bool
  RateLimited : Bool
  Tokens : TokenStats
  deriving DecidableEq

/-- `databasePlugin.HandleUsage`, record-building part: derives the
`dbRecord` from the usage record, the context's resolved status code and
the current time (used when the requested-at timestamp is the zero value). -/
def mkDbRecord (record : UsageRecord) (ctx : GoContext) (now : Nat) : DbRecord :=
  let detail := normaliseDetail record.Detail
  let timestamp := if record.RequestedAt = 0 then now else record.RequestedAt
  let status := resolveStatusCode ctx
  { Timestamp := timestamp
    Provider := record.Provider
    Model := record.Model
    CredentialLabel := credentialLabel record
    CredentialFingerprint := credentialFingerprint record
    APIKeyHash := fingerprint record.APIKey
    AuthID := record.AuthID
    AuthIndex := record.AuthIndex
    Source := record.Source
    StatusCode := status
    Failed := record.Failed
    RateLimited := decide (status = 429)
    Tokens := detail }

def boolToInt (v : Bool) : Int := if v then 1 else 0

/-! ## The embedded database state and `usageStore.insert` -/

/-- One row of the `usage_daily` aggregate table. -/
structure DailyRow where
  day : Nat
  provider : String
  credential_fingerprint : String
  credential_label : String
  model : String
  total_requests : Int
  failed_requests : Int
  rate_limited : Int
  prompt_tokens : Int
  completion_tokens : Int
  total_tokens : Int
  deriving DecidableEq

/-- The `(day, provider, credential_fingerprint, model)` primary key. -/
structure DailyKey where
  day : Nat
  provider : String
  credential_fingerprint : String
  model : String
  deriving DecidableEq

def dailyRowKey (r : DailyRow) : DailyKey :=
  ⟨r.day, r.provider, r.credential_fingerprint, r.model⟩

/-- The aggregate key of a record: `Format("2006-01-02")` buckets the UTC
timestamp by calendar day, i.e. seconds div 86400. -/
def recordDay (rec : DbRecord) : Nat := rec.Timestamp / 86400

def recordKey (rec : DbRecord) : DailyKey :=
  ⟨recordDay rec, rec.Provider, rec.CredentialFingerprint, rec.Model⟩

/-- The fresh `usage_daily` row the INSERT half of the upsert writes
(the VALUES tuple: total_requests 1, flags via boolToInt, token sums). -/
def newDaily (rec : DbRecord) : DailyRow :=
  { day := recordDay rec
    provider := rec.Provider
    credential_fingerprint := rec.CredentialFingerprint
    credential_label := rec.CredentialLabel
    model := rec.Model
    total_requests := 1
    failed_requests := boolToInt rec.Failed
    rate_limited := boolToInt rec.RateLimited
    prompt_tokens := rec.Tokens.InputTokens
    completion_tokens := rec.Tokens.OutputTokens
    total_tokens := rec.Tokens.TotalTokens }

/-- The `ON CONFLICT ... DO UPDATE` half of the upsert: add the excluded
row's counters; overwrite the label only when the incoming label is
non-empty. -/
def mergeDaily (row : DailyRow) (rec : DbRecord) : DailyRow :=
  { row with
    total_requests := row.total_requests + 1
    failed_requests := row.failed_requests + boolToInt rec.Failed
    rate_limited := row.rate_limited + boolToInt rec.RateLimited
    prompt_tokens := row.prompt_tokens + rec.Tokens.InputTokens
    completion_tokens := row.completion_tokens + rec.Tokens.OutputTokens
    total_tokens := row.total_tokens + rec.Tokens.TotalTokens
    credential_label :=
      if rec.CredentialLabel ≠ "" then rec.CredentialLabel else row.credential_label }

/-- Upsert into `usage_daily`: the primary key guarantees at most one row
per key, so the conflicting row (if any) is updated in place, otherwise a
fresh row is appended. -/
def upsertDaily (rows : List DailyRow) (rec : DbRecord) : List DailyRow :=
  match rows with
  | [] => [newDaily rec]
  | row :: rest =>
      if dailyRowKey row = recordKey rec then mergeDaily row rec :: rest
      else row :: upsertDaily rest rec

/-- The fact table stores exactly the `dbRecord` fields, append-only. -/
abbrev FactRow := DbRecord

/-- The embedded database: the append-only `usage_requests` fact table and
the keyed `usage_daily` aggregate table. -/
structure DB where
  requests : List FactRow
  daily : List DailyRow
  deriving DecidableEq

def emptyDB : DB := ⟨[], []⟩

/-- Lookup of the aggregate row for a key (first row matching the key,
as a `SELECT` by primary key). -/
def findDaily : List DailyRow → DailyKey → Option DailyRow
  | [], _ => Option.none
  | row :: rest, k => if dailyRowKey row = k then some row else findDaily rest k

/-- The combined effect of the two writes of one committed insert
transaction. -/
def applyInsert (db : DB) (rec : DbRecord) : DB :=
  { requests := db.requests ++ [rec]
    daily := upsertDaily db.daily rec }

/-- `usageStore.insert` with failure injection.  The transaction begins as
a snapshot of the database; each Exec applies to the transaction state
only; a failed engine call returns early, and the deferred Rollback leaves
the database unchanged; only a successful Commit publishes the transaction
state.  The four flags model failure of BeginTx, the fact-row INSERT, the
aggregate upsert, and Commit. -/
def insertTx (db : DB) (rec : DbRecord)
    (failBegin failFact failDaily failCommit : Bool) : DB × Option String :=
  if failBegin then (db, some ("begin failed"))
  else
    let tx := db
    if failFact then (db, some ("insert usage_requests failed"))
    else
      let tx := { tx with requests := tx.requests ++ [rec] }
      if failDaily then (db, some ("upsert usage_daily failed"))
      else
        let tx := { tx with daily := upsertDaily tx.daily rec }
        if failCommit then (db, some ("commit failed"))
        else (tx, none)

/-! ## Retention (`usageStore.applyRetention`) -/

/-- `applyRetention`: a no-op when the store's retentionDays is ≤ 0;
otherwise deletes fact rows older than now − retentionDays and aggregate
rows whose day precedes the cutoff day. -/
def applyRetention (retentionDays : Int) (now : Nat) (db : DB) : DB :=
  if retentionDays ≤ 0 then db
  else
    let cutoff : Nat := now - retentionDays.toNat * 86400
    { requests := db.requests.filter (fun r => !(r.Timestamp < cutoff))
      daily := db.daily.filter (fun r => !(r.day < cutoff / 86400)) }

/-! ## Options normalization and `ConfigureDatabase` -/

structure DatabaseOptions where
  Enabled : Bool
  Path : String
  RetentionDays : Int
  deriving DecidableEq

/-- One step of Go `path/filepath.Clean`'s lexical element processing:
".." pops a previous element (kept literally when nothing can be popped in
a relative path, dropped at the root). -/
def cleanStep (rooted : Bool) (acc : List String) (c : String) : List String :=
  if c = ".." then
    match acc with
    | [] => if rooted then [] else [".."]
    | a :: rest => if a = ".." then c :: a :: rest else rest
  else c :: acc

/-- Go `path/filepath.Clean` (Unix separator): drop empty and "."
elements, resolve ".." lexically, keep the rooted prefix, and return "."
for an empty result. -/
def cleanPath (p : String) : String :=
  if p = "" then (".")
  else
    let rooted := p.startsWith ("/")
    let comps := (p.splitOn ("/")).filter (fun c => ¬(c = "" ∨ c = "."))
    let out := (comps.foldl (cleanStep rooted) []).reverse
    let body := String.intercalate ("/") out
    if rooted then ("/") ++ body
    else if body = "" then (".") else body

/-- `normalizeDatabaseOptions`: retention ≤ 0 defaults to 14 days, a
non-empty path is lexically cleaned. -/
def normalizeDatabaseOptions (opts : DatabaseOptions) : DatabaseOptions :=
  let opts := if opts.RetentionDays ≤ 0 then { opts with RetentionDays := 14 } else opts
  if opts.Path ≠ "" then { opts with Path := cleanPath opts.Path } else opts

/-- `configsEqual`: field-wise equality, false when either side is absent. -/
def configsEqual : Option DatabaseOptions → Option DatabaseOptions → Bool
  | some a, some b =>
      a.Enabled = b.Enabled ∧ a.Path = b.Path ∧ a.RetentionDays = b.RetentionDays
  | _, _ => false

/-- An opened store resource, as `ConfigureDatabase` tracks it: its
normalized options plus an identity distinguishing distinct openings. -/
structure StoreHandle where
  id : Nat
  retentionDays : Int
  deriving DecidableEq

/-- The package-level state: `currentDBConfig` and `currentUsageStore`. -/
structure PluginState where
  currentDBConfig : Option DatabaseOptions
  currentUsageStore : Option StoreHandle
  deriving DecidableEq

/-- `ConfigureDatabase`.  `fresh` models the outcome of `newUsageStore`
(`.error` = the open failed, in which case the previous state stays in
effect); on the disable path the store is swapped to none and the retired
store closed; on the enable path the new store is swapped in. -/
def ConfigureDatabase (opts : DatabaseOptions) (st : PluginState)
    (fresh : Except String StoreHandle) : Except String PluginState :=
  let normalized := normalizeDatabaseOptions opts
  if configsEqual st.currentDBConfig (some normalized) then .ok st
  else if ¬normalized.Enabled ∨ normalized.Path = "" then
    .ok { currentDBConfig := some normalized, currentUsageStore := none }
  else
    match fresh with
    | .error e => .error e
    | .ok store =>
        .ok { currentDBConfig := some normalized, currentUsageStore := some store }

/-! ## The queue and `usageStore.enqueue` -/

/-- Queue-facing store state: the bounded channel contents (capacity 2048)
and whether the stop channel has been closed. -/
structure StoreState where
  queue : List DbRecord
  stopped : Bool
  deriving DecidableEq

/-- Which ready case a Go `select` takes when several are ready at once
(Go chooses by uniform pseudo-random selection). -/
inductive SelectBranch where
  | send
  | stop
  deriving DecidableEq

/-- `usageStore.enqueue`: a `select` between sending on the bounded queue
(ready iff the buffer has space, since the consumer may have exited) and
receiving from the stop channel (ready iff the store was stopped).
`Option.none` models blocking until a case becomes ready; `pick` resolves
the nondeterministic choice when both cases are ready. -/
def enqueue (s : StoreState) (rec : DbRecord) (pick : SelectBranch) :
    Option (StoreState × Option String) :=
  let sendReady := s.queue.length < 2048
  let stopReady := s.stopped
  if sendReady ∧ stopReady then
    match pick with
    | .send => some ({ s with queue := s.queue ++ [rec] }, Option.none)
    | .stop => some (s, some ("usage: database store stopped"))
  else if sendReady then some ({ s with queue := s.queue ++ [rec] }, Option.none)
  else if stopReady then some (s, some ("usage: database store stopped"))
  else Option.none

/-! ## Go strings.TrimSpace and the OTLP exporter
(internal/usage/otlp_plugin.go) -/

/-- Go `unicode.IsSpace`: the Unicode White_Space property. -/
def goIsSpace (c : Char) : Bool :=
  let n := c.toNat
  (9 ≤ n ∧ n ≤ 13) ∨ n = 32 ∨ n = 0x85 ∨ n = 0xa0 ∨ n = 0x1680 ∨
  (0x2000 ≤ n ∧ n ≤ 0x200a) ∨ n = 0x2028 ∨ n = 0x2029 ∨ n = 0x202f ∨
  n = 0x205f ∨ n = 0x3000

/-- Go `strings.TrimSpace`: strip leading and trailing White_Space runes. -/
def trimSpace (s : String) : String :=
  String.mk (((s.data.dropWhile goIsSpace).reverse.dropWhile goIsSpace).reverse)

/-- The gin request context as `convertRecordToEvent` reads it:
optionally-present auth value, conversation/turn ids, and writer status. -/
structure GinCtx where
  authValue : Option String
  conversationId : Option String
  turnId : Option String
  writerStatus : Option Int
  deriving DecidableEq

/-- The context handed to the exporter: either no gin context or one. -/
structure OtlpContext where
  gin : Option GinCtx
  deriving DecidableEq

/-- The attribute bag placed on every event. -/
structure OTLPAttributes where
  api_key : String
  auth_id : String
  auth_index : Nat
  source : String
  failed : Bool
  deriving DecidableEq

/-- `OTLPEvent`: the normalized event sent to the collector.  The
timestamp keeps the instant itself; the RFC3339Nano rendering is an
injective formatting of it and is not modelled character by character. -/
structure OTLPEvent where
  component : String
  event : String
  ts : Nat
  provider : String
  model : String
  accountEmail : String
  conversationId : String
  turnId : String
  tokens : List (String × Int)
  statusCode : Int
  attributes : OTLPAttributes
  deriving DecidableEq

/-- `convertRecordToEvent`. -/
def convertRecordToEvent (ctx : OtlpContext) (record : UsageRecord) : OTLPEvent :=
  let base : OTLPEvent :=
    { component := "cli-proxy-api"
      event := "usage.record"
      ts := record.RequestedAt
      provider := record.Provider
      model := record.Model
      accountEmail := ""
      conversationId := ""
      turnId := ""
      tokens :=
        [("input", record.Detail.InputTokens), ("output", record.Detail.OutputTokens),
         ("reasoning", record.Detail.ReasoningTokens), ("cached", record.Detail.CachedTokens),
         ("total", record.Detail.TotalTokens)]
      statusCode := 200
      attributes :=
        { api_key := record.APIKey
          auth_id := record.AuthID
          auth_index := record.AuthIndex
          source := record.Source
          failed := record.Failed } }
  match ctx.gin with
  | Option.none => base
  | some g =>
      let e := match g.authValue with
        | some a => if a ≠ "" then { base with accountEmail := a } else base
        | Option.none => base
      let e := match g.conversationId with
        | some c => { e with conversationId := c }
        | Option.none => e
      let e := match g.turnId with
        | some t => { e with turnId := t }
        | Option.none => e
      match g.writerStatus with
      | some st => { e with statusCode := st }
      | Option.none => e

/-- The exporter's mutable state: endpoint and enabled flag (one lock) and
the accumulation buffer (another lock).  Worker plumbing (HTTP client,
ticker, stop channel) carries no state the claims touch. -/
structure OTLPState where
  endpoint : String
  enabled : Bool
  batch : List UsageRecord
  deriving DecidableEq

/-- `NewOTLPPlugin`: endpoint from the environment (empty means unset)
with a local default, enabled, empty batch. -/
def NewOTLPPlugin (env : String) : OTLPState :=
  { endpoint := if env = "" then ("http://127.0.0.1:4318/v1/logs") else env
    enabled := true
    batch := [] }

/-- `OTLPPlugin.HandleUsage`: when disabled, return at once; otherwise
convert the record and attempt one immediate send.  The second component
lists the events handed to `sendEvent` (the outbound HTTP posts
attempted). -/
def HandleUsage (p : OTLPState) (ctx : OtlpContext) (record : UsageRecord) :
    OTLPState × List OTLPEvent :=
  if p.enabled then (p, [convertRecordToEvent ctx record]) else (p, [])

/-- `OTLPPlugin.SetEnabled`. -/
def SetEnabled (p : OTLPState) (enabled : Bool) : OTLPState :=
  { p with enabled := enabled }

/-- `OTLPPlugin.IsEnabled`. -/
def IsEnabled (p : OTLPState) : Bool := p.enabled

/-- `OTLPPlugin.SetEndpoint`: store the trimmed endpoint. -/
def SetEndpoint (p : OTLPState) (endpoint : String) : OTLPState :=
  { p with endpoint := trimSpace endpoint }

/-- `OTLPPlugin.GetEndpoint`. -/
def GetEndpoint (p : OTLPState) : String := p.endpoint

/-- `OTLPPlugin.flushBatch`: empty batch returns at once; otherwise the
batch is copied, cleared, and each record is converted (with a background
context) and sent.  The second component lists the events handed to
`sendEvent`. -/
def flushBatch (p : OTLPState) : OTLPState × List OTLPEvent :=
  if p.batch = [] then (p, [])
  else
    ({ p with batch := [] },
     p.batch.map (fun r => convertRecordToEvent { gin := Option.none } r))

/-- `OTLPPlugin.Close`: stop the ticker (no modelled state) and flush any
remaining events. -/
def CloseOTLP (p : OTLPState) : OTLPState × List OTLPEvent := flushBatch p

/-- The exporter states reachable from construction through its public
operations. -/
inductive Reachable : OTLPState → Prop
  | init (env : String) : Reachable (NewOTLPPlugin env)
  | handle {p : OTLPState} (ctx : OtlpContext) (record : UsageRecord) :
      Reachable p → Reachable (HandleUsage p ctx record).1
  | enable {p : OTLPState} (b : Bool) : Reachable p → Reachable (SetEnabled p b)
  | endpoint {p : OTLPState} (s : String) : Reachable p → Reachable (SetEndpoint p s)
  | flush {p : OTLPState} : Reachable p → Reachable (flushBatch p).1
  | close {p : OTLPState} : Reachable p → Reachable (CloseOTLP p).1

/-! ## Derived forms used by the claim statements -/

/-- The fingerprint source exactly as the spec words it: the first
non-empty value among auth id, source tag, raw key material, provider
name, in that priority order. -/
def specFingerprintSource (r : UsageRecord) : Option String :=
  [r.AuthID, r.Source, r.APIKey, r.Provider].find? (fun v => v ≠ "")

/-- The database record `HandleUsage` builds from one dispatched input
(record, context, current time). -/
def inputRec (t : UsageRecord × GoContext × Nat) : DbRecord :=
  mkDbRecord t.1 t.2.1 t.2.2

/-- The daily aggregate key of one dispatched input. -/
def inputKey (t : UsageRecord × GoContext × Nat) : DailyKey := recordKey (inputRec t)

/-- The database produced by dispatching the given inputs through
`HandleUsage` and the insert worker's success path, starting empty. -/
def handlePathDB (inputs : List (UsageRecord × GoContext × Nat)) : DB :=
  (inputs.map inputRec).foldl applyInsert emptyDB

/-- The aggregate row after one more contribution: merge into the
existing row, or create the fresh row when none exists. -/
def mergeInto : Option DailyRow → DbRecord → DailyRow
  | some row, rec => mergeDaily row rec
  | Option.none, rec => newDaily rec

/-! ## Shared concrete sample values for witnesses and counterexamples -/

/-- A concrete usage record (the spec's Scenario 1 shape). -/
def sampleRecord : UsageRecord :=
  ⟨"qwen", "qwen3-coder", "auth-A", 7, "source-A", 86400, false, "", ⟨10, 15, 0, 0, 25⟩⟩

/-- A concrete database record. -/
def sampleRec : DbRecord :=
  ⟨0, "qwen", "qwen3-coder", "acct", "fp", "", "auth-A", 7, "source-A", 200, false, false,
   ⟨10, 15, 0, 0, 25⟩⟩

/-- A concrete daily aggregate row with day 0. -/
def sampleDaily : DailyRow := ⟨0, "qwen", "fp", "acct", "qwen3-coder", 1, 0, 0, 10, 15, 25⟩

/-- A concrete exporter state. -/
def sampleOTLP : OTLPState := ⟨"http://collector.example/v1/logs", true, []⟩

/-! ## Claim theorems -/

/-- C2: for every record the insert operation processes, the fact-row
append and the aggregate upsert either both take effect (successful
commit) or neither does (any failing engine call leaves the database
unchanged, via the rolled-back transaction). -/
theorem insert_atomic (db : DB) (rec : DbRecord) (fb ff fd fc : Bool) :
    insertTx db rec fb ff fd fc = (applyInsert db rec, Option.none) ∨
    ((insertTx db rec fb ff fd fc).1 = db ∧ (insertTx db rec fb ff fd fc).2 ≠ Option.none) := by
  cases fb <;> cases ff <;> cases fd <;> cases fc <;>
    simp [insertTx, applyInsert]

/-- C2 witness: the dichotomy evaluated at a concrete database, record and
failure pattern. -/
theorem insert_atomic_witness :
    insertTx emptyDB sampleRec false false false false = (applyInsert emptyDB sampleRec, Option.none) ∨
    ((insertTx emptyDB sampleRec false false false false).1 = emptyDB ∧
      (insertTx emptyDB sampleRec false false false false).2 ≠ Option.none) :=
  insert_atomic emptyDB sampleRec false false false false

/-- C5: after a successful `ConfigureDatabase opts`, a second call with
the same options is a no-op: it succeeds and leaves the configuration and
the store pointer exactly as they were, whatever the outcome of a fresh
store opening would be. -/
theorem configure_idempotent (opts : DatabaseOptions) (st st' : PluginState)
    (fresh fresh' : Except String StoreHandle)
    (h : ConfigureDatabase opts st fresh = .ok st') :
    ConfigureDatabase opts st' fresh' = .ok st' := by
  unfold ConfigureDatabase at h ⊢
  by_cases h1 : configsEqual st.currentDBConfig (some (normalizeDatabaseOptions opts)) = true
  · rw [if_pos h1] at h
    cases h
    rw [if_pos h1]
  · rw [if_neg h1] at h
    by_cases h2 :
        ¬(normalizeDatabaseOptions opts).Enabled ∨ (normalizeDatabaseOptions opts).Path = ""
    · rw [if_pos h2] at h
      cases h
      rw [if_pos (by simp [configsEqual])]
    · rw [if_neg h2] at h
      cases fresh with
      | error e => exact absurd h (by simp)
      | ok store =>
          simp only [] at h
          cases h
          rw [if_pos (by simp [configsEqual])]

/-- C5 witness: configuring twice with concrete options; the first call
(disable path) succeeds and the second is a no-op. -/
theorem configure_idempotent_witness :
    ConfigureDatabase ⟨false, "", 0⟩ ⟨some ⟨false, "", 14⟩, Option.none⟩ (.ok ⟨1, 14⟩) =
      .ok ⟨some ⟨false, "", 14⟩, Option.none⟩ :=
  configure_idempotent ⟨false, "", 0⟩ ⟨Option.none, Option.none⟩ _ (.error ("open failed")) _
    (by rfl)

/-- C7: `SetEndpoint s` followed by `GetEndpoint` returns exactly `s` with
leading and trailing whitespace trimmed. -/
theorem set_get_endpoint_roundtrip (p : OTLPState) (s : String) :
    GetEndpoint (SetEndpoint p s) = trimSpace s := rfl

/-- C7 witness: the round-trip evaluated on the spec's Scenario 3 input. -/
theorem set_get_endpoint_roundtrip_witness :
    GetEndpoint (SetEndpoint sampleOTLP ("  https://collector.example/v1/logs  ")) =
      trimSpace ("  https://collector.example/v1/logs  ") :=
  set_get_endpoint_roundtrip sampleOTLP "  https://collector.example/v1/logs  "

/-- C8: after `SetEnabled false`, and on any state that is still disabled,
`HandleUsage` converts nothing and hands zero events to the send path. -/
theorem handleUsage_disabled_no_send (p q : OTLPState) (ctx : OtlpContext)
    (record : UsageRecord) (h : IsEnabled q = false) :
    HandleUsage (SetEnabled p false) ctx record = (SetEnabled p false, []) ∧
    HandleUsage q ctx record = (q, []) := by
  constructor
  · simp [HandleUsage, SetEnabled]
  · simp only [IsEnabled] at h
    simp [HandleUsage, h]

/-- C8 witness: a disabled concrete exporter dispatches a record with zero
outbound events. -/
theorem handleUsage_disabled_no_send_witness :
    HandleUsage (SetEnabled sampleOTLP false) { gin := Option.none } sampleRecord =
      (SetEnabled sampleOTLP false, []) ∧
    HandleUsage (⟨"e", false, []⟩ : OTLPState) { gin := Option.none } sampleRecord =
      ((⟨"e", false, []⟩ : OTLPState), []) :=
  handleUsage_disabled_no_send sampleOTLP ⟨"e", false, []⟩ { gin := Option.none } sampleRecord rfl

/-- C3 counterexample: options with RetentionDays = 0 passed to configure
are normalized to 14 days, and the resulting store's retention pass does
delete a 20-day-old fact row and its day-0 aggregate row. -/
theorem retention_configured_zero_still_deletes :
    (normalizeDatabaseOptions ⟨true, "usage.db", 0⟩).RetentionDays = 14 ∧
    applyRetention (normalizeDatabaseOptions ⟨true, "usage.db", 0⟩).RetentionDays (20 * 86400)
        ⟨[sampleRec], [sampleDaily]⟩ = ⟨[], []⟩ ∧
    (⟨[sampleRec], [sampleDaily]⟩ : DB) ≠ ⟨[], []⟩ := by
  refine ⟨rfl, by decide, by decide⟩

/-- C3 (amended): normalization turns RetentionDays ≤ 0 into the default
14 days, so a store configured with such options applies a 14-day
horizon; the retention pass deletes nothing only for a store whose own
retentionDays is ≤ 0, which configure never produces. -/
theorem retention_normalization_and_guard (opts : DatabaseOptions)
    (h : opts.RetentionDays ≤ 0) :
    (normalizeDatabaseOptions opts).RetentionDays = 14 ∧
    ∀ (now : Nat) (db : DB), applyRetention opts.RetentionDays now db = db := by
  constructor
  · by_cases hp : opts.Path = "" <;> simp [normalizeDatabaseOptions, h, hp]
  · intro now db
    unfold applyRetention
    rw [if_pos h]

/-- C3 witness: the amended statement at RetentionDays = −3. -/
theorem retention_normalization_and_guard_witness :
    (normalizeDatabaseOptions ⟨true, "usage.db", -3⟩).RetentionDays = 14 ∧
    ∀ (now : Nat) (db : DB), applyRetention (-3) now db = db :=
  retention_normalization_and_guard ⟨true, "usage.db", -3⟩ (by decide)

/-- C4 counterexample: on a stopped store whose queue has space, the
`select` may take the send case, so enqueue accepts the record and
returns no error. -/
theorem enqueue_stopped_accepts_record :
    enqueue ⟨[], true⟩ sampleRec .send = some (⟨[sampleRec], true⟩, Option.none) := by
  decide

/-- C4 (amended): on a stopped store, enqueue never blocks (and, being a
total function of the modelled select, never panics); with a full queue,
or whenever the select resolves the stop case, it returns the stop error
and does not accept the record; but while queue capacity remains the
select may nondeterministically accept the record with no error. -/
theorem enqueue_stopped_behavior (s : StoreState) (rec : DbRecord) (pick : SelectBranch)
    (h : s.stopped = true) :
    (enqueue s rec pick).isSome ∧
    enqueue s rec .stop = some (s, some ("usage: database store stopped")) ∧
    (2048 ≤ s.queue.length → enqueue s rec pick = some (s, some ("usage: database store stopped"))) ∧
    (∀ s' err, enqueue s rec pick = some (s', err) →
      (err.isSome ∧ s' = s) ∨
      (err = Option.none ∧ s.queue.length < 2048 ∧ s' = { s with queue := s.queue ++ [rec] })) := by
  obtain ⟨queue, stopped⟩ := s
  simp only at h
  subst h
  refine ⟨?_, ?_, ?_, ?_⟩
  · by_cases hq : queue.length < 2048 <;> cases pick <;> simp [enqueue, hq]
  · by_cases hq : queue.length < 2048 <;> simp [enqueue, hq]
  · intro hfull
    simp only at hfull
    have hq : ¬queue.length < 2048 := by omega
    simp [enqueue, hq]
  · intro s' err heq
    by_cases hq : queue.length < 2048
    · cases pick <;> simp [enqueue, hq] at heq
      · exact Or.inr ⟨heq.2.symm, hq, heq.1.symm⟩
      · exact Or.inl ⟨by simp [heq.2.symm], heq.1.symm⟩
    · simp [enqueue, hq] at heq
      exact Or.inl ⟨by simp [heq.2.symm], heq.1.symm⟩

/-- C4 witness: the amended statement on a concrete stopped store with an
empty queue, resolving the select to the stop case. -/
theorem enqueue_stopped_behavior_witness :
    (enqueue ⟨[], true⟩ sampleRec .stop).isSome ∧
    enqueue ⟨[], true⟩ sampleRec .stop = some (⟨[], true⟩, some ("usage: database store stopped")) ∧
    (2048 ≤ ([] : List DbRecord).length →
      enqueue ⟨[], true⟩ sampleRec .stop = some (⟨[], true⟩, some ("usage: database store stopped"))) ∧
    (∀ s' err, enqueue ⟨[], true⟩ sampleRec .stop = some (s', err) →
      (err.isSome ∧ s' = ⟨[], true⟩) ∨
      (err = Option.none ∧ ([] : List DbRecord).length < 2048 ∧
        s' = ⟨[] ++ [sampleRec], true⟩)) :=
  enqueue_stopped_behavior ⟨[], true⟩ sampleRec .stop rfl

/-- C6 counterexample: on a record whose auth id, source, raw key and
provider are all empty, the derived credential fingerprint is the hash of
the literal "unknown", not the empty-string sentinel. -/
theorem fingerprint_all_empty_not_sentinel :
    credentialFingerprint ⟨"", "", "", 0, "", 0, false, "", ⟨0, 0, 0, 0, 0⟩⟩ =
      fingerprint ("unknown") ∧
    credentialFingerprint ⟨"", "", "", 0, "", 0, false, "", ⟨0, 0, 0, 0, 0⟩⟩ ≠ "" := by
  constructor
  · rfl
  · intro hcontra
    have hlen := congrArg String.length hcontra
    revert hlen
    decide

/-- C6 (amended): the derived credential fingerprint is the one-way hash
of the first non-empty value among auth id, source tag, raw key material
and provider name in that priority order; when all four are empty it is
the hash of the literal "unknown" (a non-empty string); and fingerprint
of the empty string is the empty string. -/
theorem credentialFingerprint_priority (r : UsageRecord) :
    (∀ v, specFingerprintSource r = some v → credentialFingerprint r = fingerprint v) ∧
    (specFingerprintSource r = Option.none → credentialFingerprint r = fingerprint ("unknown")) ∧
    fingerprint ("") = "" := by
  refine ⟨?_, ?_, rfl⟩ <;>
  · unfold specFingerprintSource credentialFingerprint
    by_cases h1 : r.AuthID = "" <;> by_cases h2 : r.Source = "" <;>
      by_cases h3 : r.APIKey = "" <;> by_cases h4 : r.Provider = "" <;>
      simp [h1, h2, h3, h4, List.find?]

/-- C6 witness: the priority rule evaluated on a concrete record whose
auth id is non-empty. -/
theorem credentialFingerprint_priority_witness :
    credentialFingerprint sampleRecord = fingerprint ("auth-A") ∧ fingerprint ("") = "" :=
  ⟨(credentialFingerprint_priority sampleRecord).1 ("auth-A") rfl,
   (credentialFingerprint_priority sampleRecord).2.2⟩

/-- C9: in every reachable exporter state the accumulation batch is
empty — no public operation appends to it and `HandleUsage` always uses
the immediate path — so the periodic flush and the final flush on Close
send zero events. -/
theorem batch_always_empty (p : OTLPState) (h : Reachable p) :
    p.batch = [] ∧ flushBatch p = (p, []) ∧ CloseOTLP p = (p, []) := by
  have hb : p.batch = [] := by
    induction h with
    | init env => rfl
    | handle ctx record hr ih =>
        rename_i q
        have hst : (HandleUsage q ctx record).1 = q := by
          unfold HandleUsage
          split <;> rfl
        rw [hst]
        exact ih
    | enable b hr ih => exact ih
    | endpoint s hr ih => exact ih
    | flush hr ih =>
        rename_i q
        simp [flushBatch, ih]
    | close hr ih =>
        rename_i q
        simp [CloseOTLP, flushBatch, ih]
  refine ⟨hb, ?_, ?_⟩ <;> simp [flushBatch, CloseOTLP, hb]

/-- C9 witness: the invariant at the freshly constructed exporter. -/
theorem batch_always_empty_witness :
    (NewOTLPPlugin ("")).batch = [] ∧ flushBatch (NewOTLPPlugin ("")) = (NewOTLPPlugin (""), []) ∧
    CloseOTLP (NewOTLPPlugin ("")) = (NewOTLPPlugin (""), []) :=
  batch_always_empty (NewOTLPPlugin ("")) (Reachable.init (""))

/-! ## Helper lemmas for the aggregation claims -/

theorem dailyRowKey_newDaily (rec : DbRecord) : dailyRowKey (newDaily rec) = recordKey rec := rfl

theorem dailyRowKey_mergeDaily (row : DailyRow) (rec : DbRecord) :
    dailyRowKey (mergeDaily row rec) = dailyRowKey row := rfl

theorem inputRec_Failed (t : UsageRecord × GoContext × Nat) :
    (inputRec t).Failed = t.1.Failed := rfl

theorem inputRec_RateLimited (t : UsageRecord × GoContext × Nat) :
    (inputRec t).RateLimited = decide (resolveStatusCode t.2.1 = 429) := rfl

theorem inputRec_TotalTokens (t : UsageRecord × GoContext × Nat) :
    (inputRec t).Tokens.TotalTokens = t.1.Detail.TotalTokens := rfl

theorem inputRec_Label (t : UsageRecord × GoContext × Nat) :
    (inputRec t).CredentialLabel = credentialLabel t.1 := rfl

/-- Effect of one upsert on a key lookup: the record's own key now maps to
the merged (or fresh) row, every other key is untouched. -/
theorem findDaily_upsertDaily (rows : List DailyRow) (rec : DbRecord) (k : DailyKey) :
    findDaily (upsertDaily rows rec) k =
      if recordKey rec = k then some (mergeInto (findDaily rows k) rec)
      else findDaily rows k := by
  induction rows with
  | nil =>
      by_cases hk : recordKey rec = k <;>
        simp [upsertDaily, findDaily, mergeInto, dailyRowKey_newDaily, hk]
  | cons row rest ih =>
      unfold upsertDaily
      by_cases hm : dailyRowKey row = recordKey rec
      · rw [if_pos hm]
        by_cases hk : recordKey rec = k
        · have hrk : dailyRowKey row = k := hm.trans hk
          simp [findDaily, dailyRowKey_mergeDaily, hrk, hk, mergeInto]
        · have hrk : ¬dailyRowKey row = k := fun hc => hk (hm.symm.trans hc)
          simp [findDaily, dailyRowKey_mergeDaily, hrk, hk]
      · rw [if_neg hm]
        by_cases hrk : dailyRowKey row = k
        · have hk : ¬recordKey rec = k := fun hc => hm (hrk.trans hc.symm)
          simp [findDaily, hrk, hk]
        · simp [findDaily, hrk, ih]

/-- Key lookup after folding the success-path inserts of a run of inputs:
the result is the merge-fold of exactly the inputs whose key matches. -/
theorem findDaily_handlePath (inputs : List (UsageRecord × GoContext × Nat)) (db : DB)
    (k : DailyKey) :
    findDaily ((inputs.map inputRec).foldl applyInsert db).daily k =
      (inputs.filter (fun t => inputKey t = k)).foldl
        (fun acc t => some (mergeInto acc (inputRec t))) (findDaily db.daily k) := by
  induction inputs generalizing db with
  | nil => rfl
  | cons t rest ih =>
      simp only [List.map_cons, List.foldl_cons, List.filter_cons]
      rw [ih (applyInsert db (inputRec t))]
      have hstep : findDaily (applyInsert db (inputRec t)).daily k =
          if inputKey t = k then some (mergeInto (findDaily db.daily k) (inputRec t))
          else findDaily db.daily k := findDaily_upsertDaily db.daily (inputRec t) k
      rw [hstep]
      by_cases hk : inputKey t = k
      · rw [if_pos hk]
        simp [hk]
      · rw [if_neg hk]
        simp [hk]

/-- Counting: folding contributions onto an existing row adds the number
of inputs to total_requests, the failed and 429 counts to the failure
counters, and the token totals to the running sum. -/
theorem aggFold_counts (inputs : List (UsageRecord × GoContext × Nat)) (row : DailyRow) :
    ∃ row', inputs.foldl (fun acc t => some (mergeInto acc (inputRec t))) (some row) = some row' ∧
      row'.total_requests = row.total_requests + inputs.length ∧
      row'.failed_requests =
        row.failed_requests + ((inputs.filter (fun t => t.1.Failed)).length : Int) ∧
      row'.rate_limited =
        row.rate_limited +
          ((inputs.filter (fun t => resolveStatusCode t.2.1 = 429)).length : Int) ∧
      row'.total_tokens =
        row.total_tokens + (inputs.map (fun t => t.1.Detail.TotalTokens)).sum := by
  induction inputs generalizing row with
  | nil => exact ⟨row, rfl, by simp, by simp, by simp, by simp⟩
  | cons t rest ih =>
      obtain ⟨row', heq, h1, h2, h3, h4⟩ := ih (mergeDaily row (inputRec t))
      refine ⟨row', by simpa [mergeInto] using heq, ?_, ?_, ?_, ?_⟩
      · rw [h1]
        simp only [mergeDaily, List.length_cons]
        push_cast
        ring
      · rw [h2]
        simp only [mergeDaily, List.filter_cons, inputRec_Failed]
        cases hF : t.1.Failed <;> simp [boolToInt, hF] <;> push_cast <;> ring
      · rw [h3]
        simp only [mergeDaily, List.filter_cons, inputRec_RateLimited]
        by_cases hR : resolveStatusCode t.2.1 = 429 <;>
          simp [boolToInt, hR] <;> push_cast <;> ring
      · rw [h4]
        simp only [mergeDaily, List.map_cons, List.sum_cons, inputRec_TotalTokens]
        ring

/-- `credentialLabel` falls back through non-empty fields and non-empty
literals, so it is never empty. -/
theorem credentialLabel_ne_empty (record : UsageRecord) : credentialLabel record ≠ "" := by
  unfold credentialLabel
  split
  · assumption
  · split
    · assumption
    · split
      · assumption
      · split <;> simp

/-- Upserting a record with a non-empty label preserves "all daily rows
have non-empty labels". -/
theorem upsertDaily_labels (rows : List DailyRow) (rec : DbRecord)
    (hrows : ∀ r ∈ rows, r.credential_label ≠ "") (hrec : rec.CredentialLabel ≠ "") :
    ∀ r ∈ upsertDaily rows rec, r.credential_label ≠ "" := by
  induction rows with
  | nil =>
      intro r hr
      simp only [upsertDaily, List.mem_singleton] at hr
      subst hr
      simpa [newDaily] using hrec
  | cons row rest ih =>
      intro r hr
      unfold upsertDaily at hr
      split at hr
      · rcases List.mem_cons.mp hr with h | h
        · subst h
          simpa [mergeDaily, hrec] using hrec
        · exact hrows r (List.mem_cons_of_mem _ h)
      · rcases List.mem_cons.mp hr with h | h
        · subst h
          exact hrows r (List.mem_cons_self _ _)
        · exact ih (fun x hx => hrows x (List.mem_cons_of_mem _ hx)) r h

/-- Folding success-path inserts preserves "all persisted rows carry a
non-empty credential label". -/
theorem foldl_applyInsert_labels (inputs : List (UsageRecord × GoContext × Nat)) (db : DB)
    (hreq : ∀ r ∈ db.requests, r.CredentialLabel ≠ "")
    (hday : ∀ d ∈ db.daily, d.credential_label ≠ "") :
    (∀ r ∈ ((inputs.map inputRec).foldl applyInsert db).requests, r.CredentialLabel ≠ "") ∧
    (∀ d ∈ ((inputs.map inputRec).foldl applyInsert db).daily, d.credential_label ≠ "") := by
  induction inputs generalizing db with
  | nil => exact ⟨hreq, hday⟩
  | cons t rest ih =>
      simp only [List.map_cons, List.foldl_cons]
      apply ih
      · intro r hr
        rcases List.mem_append.mp hr with h | h
        · exact hreq r h
        · rw [List.mem_singleton] at h
          subst h
          rw [inputRec_Label]
          exact credentialLabel_ne_empty t.1
      · exact upsertDaily_labels db.daily (inputRec t) hday
          (by rw [inputRec_Label]; exact credentialLabel_ne_empty t.1)

/-- C1: among any run of dispatched inputs inserted through the
handle/insert success path, the daily aggregate row for a key counts
exactly the inputs with that key: total_requests is their number,
failed_requests the number with failed=true, rate_limited the number
whose resolved status code is 429, and total_tokens the sum of their
total token counts. -/
theorem daily_aggregate_correct (inputs : List (UsageRecord × GoContext × Nat)) (k : DailyKey)
    (hne : inputs.filter (fun t => inputKey t = k) ≠ []) :
    ∃ row, findDaily (handlePathDB inputs).daily k = some row ∧
      row.total_requests = ((inputs.filter (fun t => inputKey t = k)).length : Int) ∧
      row.failed_requests =
        ((inputs.filter (fun t => inputKey t = k ∧ t.1.Failed)).length : Int) ∧
      row.rate_limited =
        ((inputs.filter (fun t => inputKey t = k ∧ resolveStatusCode t.2.1 = 429)).length : Int) ∧
      row.total_tokens =
        ((inputs.filter (fun t => inputKey t = k)).map (fun t => t.1.Detail.TotalTokens)).sum := by
  unfold handlePathDB
  rw [findDaily_handlePath]
  have hf2 : inputs.filter (fun t => inputKey t = k ∧ t.1.Failed) =
      (inputs.filter (fun t => inputKey t = k)).filter (fun t => t.1.Failed) := by
    rw [List.filter_filter]
    exact List.filter_congr (fun t _ => by
      simp [Bool.decide_and, Bool.decide_coe, Bool.and_comm])
  have hf3 : inputs.filter (fun t => inputKey t = k ∧ resolveStatusCode t.2.1 = 429) =
      (inputs.filter (fun t => inputKey t = k)).filter
        (fun t => resolveStatusCode t.2.1 = 429) := by
    rw [List.filter_filter]
    exact List.filter_congr (fun t _ => by simp [Bool.decide_and, Bool.and_comm])
  cases hfr : inputs.filter (fun t => inputKey t = k) with
  | nil => exact absurd hfr hne
  | cons t rest =>
      simp only [List.foldl_cons]
      obtain ⟨row', heq, h1, h2, h3, h4⟩ := aggFold_counts rest (newDaily (inputRec t))
      refine ⟨row', ?_, ?_, ?_, ?_, ?_⟩
      · simpa [mergeInto, emptyDB, findDaily] using heq
      · rw [h1]
        simp only [newDaily, List.length_cons]
        push_cast
        ring
      · rw [hf2, hfr, h2, List.filter_cons]
        cases hF : t.1.Failed <;>
          simp only [newDaily, boolToInt, inputRec_Failed, hF, if_true, if_false,
            Bool.false_eq_true, ite_false, ite_true, List.length_cons] <;>
          push_cast <;> ring
      · rw [hf3, hfr, h3, List.filter_cons]
        by_cases hR : resolveStatusCode t.2.1 = 429 <;>
          simp only [newDaily, boolToInt, inputRec_RateLimited, hR, decide_True,
            decide_False, if_true, if_false, Bool.false_eq_true, ite_false, ite_true,
            List.length_cons] <;>
          push_cast <;> ring
      · rw [h4]
        simp [newDaily, inputRec_TotalTokens]

/-- C1 witness: one Scenario-1-style input; its key's aggregate row
carries the counts of that singleton run. -/
theorem daily_aggregate_correct_witness :
    ∃ row,
      findDaily (handlePathDB [(sampleRecord, GoContext.gin 200, 0)]).daily
          (inputKey (sampleRecord, GoContext.gin 200, 0)) = some row ∧
      row.total_requests =
        (([(sampleRecord, GoContext.gin 200, 0)].filter
            (fun t => inputKey t = inputKey (sampleRecord, GoContext.gin 200, 0))).length : Int) ∧
      row.failed_requests =
        (([(sampleRecord, GoContext.gin 200, 0)].filter
            (fun t => inputKey t = inputKey (sampleRecord, GoContext.gin 200, 0) ∧
              t.1.Failed)).length : Int) ∧
      row.rate_limited =
        (([(sampleRecord, GoContext.gin 200, 0)].filter
            (fun t => inputKey t = inputKey (sampleRecord, GoContext.gin 200, 0) ∧
              resolveStatusCode t.2.1 = 429)).length : Int) ∧
      row.total_tokens =
        (([(sampleRecord, GoContext.gin 200, 0)].filter
            (fun t => inputKey t = inputKey (sampleRecord, GoContext.gin 200, 0))).map
          (fun t => t.1.Detail.TotalTokens)).sum :=
  daily_aggregate_correct [(sampleRecord, GoContext.gin 200, 0)]
    (inputKey (sampleRecord, GoContext.gin 200, 0)) (by simp)

/-- C10: the derived credential label is never empty (it falls back
through auth id, source, provider, "api-key", "unknown"); hence every
fact row and daily aggregate row written by the handle/insert path
carries a non-empty credential_label, and the aggregate upsert's
empty-label branch is never taken for these rows (the merge always
overwrites the stored label with the incoming one). -/
theorem credential_label_nonempty (record : UsageRecord) (ctx : GoContext) (now : Nat)
    (row : DailyRow) (inputs : List (UsageRecord × GoContext × Nat)) :
    credentialLabel record ≠ "" ∧
    (mkDbRecord record ctx now).CredentialLabel ≠ "" ∧
    (mergeDaily row (mkDbRecord record ctx now)).credential_label =
      (mkDbRecord record ctx now).CredentialLabel ∧
    (∀ r ∈ (handlePathDB inputs).requests, r.CredentialLabel ≠ "") ∧
    (∀ d ∈ (handlePathDB inputs).daily, d.credential_label ≠ "") := by
  have hlbl : (mkDbRecord record ctx now).CredentialLabel = credentialLabel record := rfl
  have hne := credentialLabel_ne_empty record
  have hfold := foldl_applyInsert_labels inputs emptyDB (by simp [emptyDB]) (by simp [emptyDB])
  exact ⟨hne, hlbl ▸ hne, by simp [mergeDaily, hlbl, hne], hfold.1, hfold.2⟩

/-- C10 witness: the conjunction evaluated at a concrete record, row and
run of inputs. -/
theorem credential_label_nonempty_witness :
    credentialLabel sampleRecord ≠ "" ∧
    (mkDbRecord sampleRecord GoContext.none 0).CredentialLabel ≠ "" ∧
    (mergeDaily sampleDaily (mkDbRecord sampleRecord GoContext.none 0)).credential_label =
      (mkDbRecord sampleRecord GoContext.none 0).CredentialLabel ∧
    (∀ r ∈ (handlePathDB [(sampleRecord, GoContext.none, 0)]).requests,
      r.CredentialLabel ≠ "") ∧
    (∀ d ∈ (handlePathDB [(sampleRecord, GoContext.none, 0)]).daily,
      d.credential_label ≠ "") :=
  credential_label_nonempty sampleRecord GoContext.none 0 sampleDaily
    [(sampleRecord, GoContext.none, 0)]

end CLIProxy
